import Mathlib

/-!
Verification of the invoice-generator core (totals engine, record store,
query layer, import/export mediator) against its specification.

Modelling conventions:
* TypeScript numbers are modelled as exact rationals (`ℚ`).  The totals
  pipeline performs no intermediate rounding, so its algebra is captured
  exactly by `ℚ`.
* Optional numeric fields (`discountPct?`, `shipping?`, ...) are `Option ℚ`.
  JavaScript truthiness of a number is `x ≠ 0`; the guards in the source
  (`x && x > 0`, ternaries, `|| 0`) are translated by case analysis that
  reproduces that truthiness exactly.
* `Array.prototype.reduce` with `(sum, v) => sum + f v` starting at `0` is
  modelled as `(l.map f).sum`.
* The IndexedDB object stores are modelled as lists of records; `put` is
  an upsert on the key (in-place replacement of the record with the same
  key, otherwise append).  Record order inside a store is never observable
  in the properties proved here.
-/

namespace InvGen

/-! ## Data model (src/schema.ts) -/

inductive InvoiceStatus
  | draft
  | sent
  | paid
  | overdue
  | archived
deriving DecidableEq

inductive ThemeMode
  | light
  | dark
deriving DecidableEq

inductive Density
  | cozy
  | compact
deriving DecidableEq

inductive PageSize
  | letter
  | a4
deriving DecidableEq

structure Theme where
  primary : String
  mode : ThemeMode
  density : Density
  pageSize : PageSize
deriving DecidableEq

structure Seller where
  name : String
  address : String
  email : Option String
  phone : Option String
  website : Option String
  logoDataUrl : Option String
deriving DecidableEq

structure Client where
  name : String
  address : Option String
  email : Option String
deriving DecidableEq

structure InvoiceMeta where
  po : Option String
  reference : Option String
deriving DecidableEq

structure InvoiceItem where
  id : String
  description : String
  quantity : ℚ
  unitPrice : ℚ
  taxRatePct : Option ℚ
  discountPct : Option ℚ
deriving DecidableEq

structure Adjustments where
  shipping : Option ℚ
  globalDiscountPct : Option ℚ
  globalTaxPct : Option ℚ
deriving DecidableEq

structure Payment where
  id : String
  date : String
  amount : ℚ
  note : Option String
deriving DecidableEq

structure Totals where
  subtotal : ℚ
  tax : ℚ
  discount : ℚ
  grandTotal : ℚ
  amountPaid : ℚ
  balanceDue : ℚ
deriving DecidableEq

structure Invoice where
  id : String
  number : String
  status : InvoiceStatus
  createdAt : String
  updatedAt : String
  issueDate : String
  dueDate : String
  currency : String
  language : String
  theme : Theme
  seller : Seller
  client : Client
  meta : Option InvoiceMeta
  items : List InvoiceItem
  adjustments : Adjustments
  payments : List Payment
  notes : Option String
  terms : Option String
  totals : Totals
deriving DecidableEq

/-! ## Totals engine (src/utils.ts) -/

/-- `quantity * unitPrice` of a line item (utils.ts line 46 / 69). -/
def itemBase (item : InvoiceItem) : ℚ :=
  item.quantity * item.unitPrice

/-- The item-level discount amount contributed by one item
(utils.ts lines 73-78; the guard is `item.discountPct && item.discountPct > 0`,
which for a JS number is exactly "present and positive"). -/
def itemDiscountAmt (item : InvoiceItem) : ℚ :=
  match item.discountPct with
  | some d => if 0 < d then itemBase item * d / 100 else 0
  | none => 0

/-- The tax base of one item: `item.discountPct ? sub * (1 - d/100) : sub`
(utils.ts lines 100-103; a set-but-zero `discountPct` is falsy). -/
def itemTaxBase (item : InvoiceItem) : ℚ :=
  match item.discountPct with
  | some d => if d ≠ 0 then itemBase item * (1 - d / 100) else itemBase item
  | none => itemBase item

/-- The item-level tax amount contributed by one item
(utils.ts lines 98-107; guard `item.taxRatePct && item.taxRatePct > 0`). -/
def itemTaxAmt (item : InvoiceItem) : ℚ :=
  match item.taxRatePct with
  | some t => if 0 < t then itemTaxBase item * t / 100 else 0
  | none => 0

/-- `calculateLineTotal` (utils.ts lines 45-59). -/
def calculateLineTotal (item : InvoiceItem) : ℚ :=
  let total := item.quantity * item.unitPrice
  let total :=
    match item.discountPct with
    | some d => if 0 < d then total * (1 - d / 100) else total
    | none => total
  match item.taxRatePct with
  | some t => if 0 < t then total * (1 + t / 100) else total
  | none => total

/-- The JS ternary `pct ? base * pct / 100 : 0` on an optional percentage:
a percentage that is absent or zero (falsy) contributes nothing. -/
def pctOf (pct : Option ℚ) (base : ℚ) : ℚ :=
  match pct with
  | some g => if g ≠ 0 then base * g / 100 else 0
  | none => 0

/-- JS `x || 0` on an optional number (absent and zero both give `0`). -/
def numOr0 (x : Option ℚ) : ℚ :=
  match x with
  | some s => if s ≠ 0 then s else 0
  | none => 0

/-- `calculateInvoiceTotals` (utils.ts lines 66-135), with each `let`
mirroring one named constant of the source.  The ternaries on the optional
global adjustments (`x ? e : 0`, `shipping || 0`) are `pctOf` / `numOr0`. -/
def calculateInvoiceTotals (invoice : Invoice) : Totals :=
  let subtotal := (invoice.items.map itemBase).sum
  let itemDiscounts := (invoice.items.map itemDiscountAmt).sum
  let subtotalAfterItemDiscounts := subtotal - itemDiscounts
  let globalDiscount := pctOf invoice.adjustments.globalDiscountPct subtotalAfterItemDiscounts
  let totalDiscount := itemDiscounts + globalDiscount
  let amountAfterDiscounts := subtotalAfterItemDiscounts - globalDiscount
  let shipping := numOr0 invoice.adjustments.shipping
  let amountWithShipping := amountAfterDiscounts + shipping
  let itemTaxes := (invoice.items.map itemTaxAmt).sum
  let globalTax := pctOf invoice.adjustments.globalTaxPct amountWithShipping
  let totalTax := itemTaxes + globalTax
  let grandTotal := amountWithShipping + totalTax
  let amountPaid := (invoice.payments.map Payment.amount).sum
  let balanceDue := grandTotal - amountPaid
  { subtotal := subtotal
    tax := totalTax
    discount := totalDiscount
    grandTotal := grandTotal
    amountPaid := amountPaid
    balanceDue := balanceDue }

/-- The twelve-step pipeline exactly as spec section 4.1 words it, written
independently of the source for the comparison in claim C1: percentages are
"0 if unset" (`Option.getD 0`), step 8 applies each item's own discount to
its tax base, and steps with an explicit `> 0` guard keep that guard. -/
def specTotals (invoice : Invoice) : Totals :=
  let subtotal := (invoice.items.map fun i => i.quantity * i.unitPrice).sum
  let itemDiscounts := (invoice.items.map fun i =>
    match i.discountPct with
    | some d => if 0 < d then i.quantity * i.unitPrice * d / 100 else 0
    | none => 0).sum
  let subtotalAfterItemDiscounts := subtotal - itemDiscounts
  let globalDiscount :=
    subtotalAfterItemDiscounts * (invoice.adjustments.globalDiscountPct.getD 0) / 100
  let totalDiscount := itemDiscounts + globalDiscount
  let amountAfterDiscounts := subtotalAfterItemDiscounts - globalDiscount
  let amountWithShipping := amountAfterDiscounts + invoice.adjustments.shipping.getD 0
  let itemTaxes := (invoice.items.map fun i =>
    match i.taxRatePct with
    | some t =>
        if 0 < t then
          i.quantity * i.unitPrice * (1 - (i.discountPct.getD 0) / 100) * t / 100
        else 0
    | none => 0).sum
  let globalTax := amountWithShipping * (invoice.adjustments.globalTaxPct.getD 0) / 100
  let totalTax := itemTaxes + globalTax
  let grandTotal := amountWithShipping + totalTax
  let amountPaid := (invoice.payments.map Payment.amount).sum
  { subtotal := subtotal
    tax := totalTax
    discount := totalDiscount
    grandTotal := grandTotal
    amountPaid := amountPaid
    balanceDue := grandTotal - amountPaid }

/-! ## Record store (src/storage.ts, shipped as src/unnamed/part_002)

The two IndexedDB object stores are modelled as lists of records.  `put` is
the IndexedDB upsert: the record with the same key is replaced in place,
otherwise the record is appended.  Keys are unique in any store built by
these operations, so the representation is a keyed map. -/

/-- Setting values are opaque to the store (`value: any` in the source). -/
abbrev SVal := String

/-- IndexedDB `put` (upsert by key) on a list-represented object store. -/
def putByKey (key : β → String) : List β → β → List β
  | [], x => [x]
  | v :: t, x => if key v = key x then x :: t else v :: putByKey key t x

/-- IndexedDB `get` by key on a list-represented object store. -/
def findByKey (key : β → String) : List β → String → Option β
  | [], _ => none
  | v :: t, k => if key v = k then some v else findByKey key t k

/-- The last record of `l` carrying key `k`, if any — the record that a
sequence of `put`s of `l`'s elements leaves under `k`. -/
def lastWithKey (key : β → String) (l : List β) (k : String) : Option β :=
  findByKey key l.reverse k

/-- JS `a ?? b` on optional lookup results (first hit wins). -/
def orElseO (a b : Option β) : Option β :=
  match a with
  | some v => some v
  | none => b

/-- The full database: invoice store plus key-value settings store. -/
structure Store where
  invoices : List Invoice
  settings : List (String × SVal)
deriving DecidableEq

def putInvoice (db : List Invoice) (inv : Invoice) : List Invoice :=
  putByKey Invoice.id db inv

/-- `getInvoice` (storage.ts lines 78-81). -/
def getInvoice (db : List Invoice) (id : String) : Option Invoice :=
  findByKey Invoice.id db id

def putSetting (ss : List (String × SVal)) (kv : String × SVal) :
    List (String × SVal) :=
  putByKey Prod.fst ss kv

/-- `String(sequence).padStart(4, '0')` for schema.ts `generateInvoiceNumber`. -/
def padStart (s : String) (n : ℕ) (c : Char) : String :=
  String.mk (List.replicate (n - s.length) c) ++ s

/-- `generateInvoiceNumber` (schema.ts lines 225-230).  The source reads the
current year and zero-padded month from the clock; that effect is passed in
as the `yearMonth` string. -/
def generateInvoiceNumber (yearMonth : String) (sequence : ℕ) : String :=
  "INV-" ++ yearMonth ++ "-" ++ padStart (toString sequence) 4 '0'

/-- `duplicateInvoice` (storage.ts lines 148-180).  Effects are passed in:
`newId` is the `generateId()` result, `now` the clock reading, `yearMonth`
the clock-derived part of the invoice number.  Returns the result of the
call paired with the invoice store after it. -/
def duplicateInvoice (db : List Invoice) (id : String)
    (newId now yearMonth : String) : Option Invoice × List Invoice :=
  match getInvoice db id with
  | none => (none, db)
  | some original =>
    let nextSequence := db.length + 1
    let dup : Invoice :=
      { original with
        id := newId
        number := generateInvoiceNumber yearMonth nextSequence
        status := .draft
        createdAt := now
        updatedAt := now
        payments := []
        totals :=
          { original.totals with
            amountPaid := 0
            balanceDue := original.totals.grandTotal } }
    (some dup, putInvoice db dup)

/-! ## Query layer (storage.ts lines 97-131 and 186-212) -/

structure InvoiceFilter where
  status : Option (List InvoiceStatus)
  dateFrom : Option String
  dateTo : Option String
  searchQuery : Option String
deriving DecidableEq

/-- Decidable substring test on character lists (JS `String.includes`). -/
def isPre : List Char → List Char → Bool
  | [], _ => true
  | _ :: _, [] => false
  | a :: as, b :: bs => a = b && isPre as bs

def hasSub (q : List Char) : List Char → Bool
  | [] => q.isEmpty
  | c :: t => isPre q (c :: t) || hasSub q t

/-- `s.includes(q)` for strings. -/
def strIncludes (s q : String) : Bool :=
  hasSub q.data s.data

/-- The search-query predicate of `getFilteredInvoices` (storage.ts lines
116-125): the lower-cased query must occur in the lower-cased invoice
number, client name, or seller name, or in the notes when they are present
and truthy. -/
def matchesQuery (rawQuery : String) (inv : Invoice) : Bool :=
  let query := rawQuery.toLower
  strIncludes inv.number.toLower query ||
  strIncludes inv.client.name.toLower query ||
  strIncludes inv.seller.name.toLower query ||
  (match inv.notes with
   | some n => if n ≠ "" then strIncludes n.toLower query else false
   | none => false)

/-- Sort relation of storage.ts line 128: newest `createdAt` first.  The JS
`new Date(s).getTime()` parse is the opaque parameter `time`. -/
def createdDesc (time : String → ℤ) (a b : Invoice) : Prop :=
  time b.createdAt ≤ time a.createdAt

instance (time : String → ℤ) : DecidableRel (createdDesc time) :=
  fun _ _ => inferInstanceAs (Decidable (_ ≤ _))

instance (time : String → ℤ) : IsTotal Invoice (createdDesc time) :=
  ⟨fun a b => le_total (time b.createdAt) (time a.createdAt)⟩

instance (time : String → ℤ) : IsTrans Invoice (createdDesc time) :=
  ⟨fun _ _ _ hab hbc => le_trans hbc hab⟩

/-- `getFilteredInvoices` (storage.ts lines 97-131).  Each guard repeats the
source's truthiness test: a missing criterion, an empty status array, or an
empty string is skipped.  The final sort is modelled by insertion sort; the
source sorts with a comparator on `Date.getTime`, and no property proved
here depends on the order among ties. -/
def getFilteredInvoices (time : String → ℤ) (filter : InvoiceFilter)
    (db : List Invoice) : List Invoice :=
  let invoices := db
  let invoices :=
    match filter.status with
    | some ss =>
        if ss.length > 0 then
          invoices.filter (fun inv => ss.any (fun s => decide (s = inv.status)))
        else invoices
    | none => invoices
  let invoices :=
    match filter.dateFrom with
    | some d =>
        if d ≠ "" then invoices.filter (fun inv => decide (d ≤ inv.createdAt))
        else invoices
    | none => invoices
  let invoices :=
    match filter.dateTo with
    | some d =>
        if d ≠ "" then invoices.filter (fun inv => decide (inv.createdAt ≤ d))
        else invoices
    | none => invoices
  let invoices :=
    match filter.searchQuery with
    | some q =>
        if q ≠ "" then invoices.filter (fun inv => matchesQuery q inv)
        else invoices
    | none => invoices
  List.insertionSort (createdDesc time) invoices

structure InvoiceSummary where
  totalInvoices : ℕ
  totalRevenue : ℚ
  totalPaid : ℚ
  totalOutstanding : ℚ
  byStatus : List (InvoiceStatus × ℕ)
deriving DecidableEq

/-- The initial `byStatus` record of `getInvoiceSummary` (storage.ts lines
195-201): every status key present with count `0`. -/
def initialByStatus : List (InvoiceStatus × ℕ) :=
  [(.draft, 0), (.sent, 0), (.paid, 0), (.overdue, 0), (.archived, 0)]

/-- `summary.byStatus[invoice.status]++` (storage.ts line 208). -/
def bumpStatus (m : List (InvoiceStatus × ℕ)) (s : InvoiceStatus) :
    List (InvoiceStatus × ℕ) :=
  m.map (fun p => if p.1 = s then (p.1, p.2 + 1) else p)

/-- Lookup in the `byStatus` association: `none` models an absent key. -/
def statusCount : List (InvoiceStatus × ℕ) → InvoiceStatus → Option ℕ
  | [], _ => none
  | p :: t, s => if p.1 = s then some p.2 else statusCount t s

/-- The body of the `invoices.forEach` accumulation (storage.ts lines
204-209). -/
def sumStep (summary : InvoiceSummary) (invoice : Invoice) : InvoiceSummary :=
  { summary with
    totalRevenue := summary.totalRevenue + invoice.totals.grandTotal
    totalPaid := summary.totalPaid + invoice.totals.amountPaid
    totalOutstanding := summary.totalOutstanding + invoice.totals.balanceDue
    byStatus := bumpStatus summary.byStatus invoice.status }

/-- `getInvoiceSummary` (storage.ts lines 186-212). -/
def getInvoiceSummary (db : List Invoice) : InvoiceSummary :=
  db.foldl sumStep
    { totalInvoices := db.length
      totalRevenue := 0
      totalPaid := 0
      totalOutstanding := 0
      byStatus := initialByStatus }

/-! ## Import/export mediator (storage.ts lines 249-296) -/

def DB_VERSION : ℕ := 1

/-- The document produced by `exportData`.  `settings` holds the result of
`db.getAll('settings')`: for a store with out-of-line keys IndexedDB
`getAll` returns the stored *values* only, so the setting keys do not
appear in the document. -/
structure ExportDoc where
  version : ℕ
  exportedAt : String
  invoices : List Invoice
  settings : List SVal
deriving DecidableEq

/-- `exportData` (storage.ts lines 249-262); the clock reading serialized
into `exportedAt` is passed in as `now`. -/
def exportData (st : Store) (now : String) : ExportDoc :=
  { version := DB_VERSION
    exportedAt := now
    invoices := st.invoices
    settings := st.settings.map Prod.snd }

/-- The fields of a parsed import document that `importData` reads:
`data.invoices` (a field that is absent, or an array of invoice records)
and `data.settings` (absent, or an array of `{key, value}` entries).
`JSON.parse` success or failure is the `Option` wrapping in `importData`'s
argument.  Parsed documents whose `invoices` field holds a truthy
non-array value are outside this model (the source would throw mid-loop on
them); no claim needs them. -/
structure ImportDoc where
  invoices : Option (List Invoice)
  settings : Option (List (String × SVal))
deriving DecidableEq

inductive ImportError
  | malformedImport
deriving DecidableEq

def emptyStore : Store :=
  { invoices := [], settings := [] }

/-- `importData` (storage.ts lines 270-296).  `parsed = none` models a
`JSON.parse` throw: the error escapes before any store access.  Otherwise,
`merge=false` first clears both object stores; `data.invoices || []`
defaults an absent field to the empty array; settings entries are upserted
by key.  The result pairs the store after the call with the returned
invoice count (or the thrown error). -/
def importData (parsed : Option ImportDoc) (merge : Bool) (st : Store) :
    Store × Except ImportError ℕ :=
  match parsed with
  | none => (st, .error .malformedImport)
  | some data =>
    let st := if merge then st else emptyStore
    let invoices := data.invoices.getD []
    let st := { st with invoices := invoices.foldl putInvoice st.invoices }
    let st :=
      match data.settings with
      | some ss => { st with settings := ss.foldl putSetting st.settings }
      | none => st
    (st, .ok invoices.length)

/-! ## Lemmas about the keyed stores -/

theorem orElseO_assoc (a b c : Option β) :
    orElseO (orElseO a b) c = orElseO a (orElseO b c) := by
  cases a <;> rfl

theorem findByKey_append (key : β → String) (l₁ l₂ : List β) (k : String) :
    findByKey key (l₁ ++ l₂) k =
      orElseO (findByKey key l₁ k) (findByKey key l₂ k) := by
  induction l₁ with
  | nil => rfl
  | cons v t ih =>
    simp only [List.cons_append, findByKey]
    by_cases h : key v = k
    · simp [h, orElseO]
    · simp [h, ih]

theorem findByKey_putByKey (key : β → String) (db : List β) (x : β)
    (k : String) :
    findByKey key (putByKey key db x) k =
      if key x = k then some x else findByKey key db k := by
  induction db with
  | nil => rfl
  | cons v t ih =>
    simp only [putByKey]
    by_cases hv : key v = key x
    · simp only [if_pos hv, findByKey]
      by_cases hk : key x = k
      · simp [hk]
      · have hvk : ¬ key v = k := by rw [hv]; exact hk
        simp [findByKey, hvk, hk]
    · simp only [if_neg hv, findByKey]
      by_cases hk : key v = k
      · have hxk : ¬ key x = k := by rw [← hk]; exact fun h => hv h.symm
        simp [hk, hxk]
      · simp [hk, ih]

theorem lastWithKey_cons (key : β → String) (v : β) (t : List β) (k : String) :
    lastWithKey key (v :: t) k =
      orElseO (lastWithKey key t k) (if key v = k then some v else none) := by
  simp only [lastWithKey, List.reverse_cons, findByKey_append]
  by_cases h : key v = k <;> simp [findByKey, h]

theorem findByKey_foldl_putByKey (key : β → String) (l : List β)
    (db : List β) (k : String) :
    findByKey key (l.foldl (putByKey key) db) k =
      orElseO (lastWithKey key l k) (findByKey key db k) := by
  induction l generalizing db with
  | nil => simp [lastWithKey, findByKey, orElseO]
  | cons v t ih =>
    rw [List.foldl_cons, ih, lastWithKey_cons, orElseO_assoc]
    congr 1
    rw [findByKey_putByKey]
    by_cases h : key v = k <;> simp [h, orElseO]

theorem putByKey_of_newKey (key : β → String) (db : List β) (x : β)
    (h : ∀ w ∈ db, key w ≠ key x) :
    putByKey key db x = db ++ [x] := by
  induction db with
  | nil => rfl
  | cons v t ih =>
    simp only [putByKey]
    rw [if_neg (h v (List.mem_cons_self v t)),
      ih (fun w hw => h w (List.mem_cons_of_mem v hw))]
    rfl

theorem foldl_putByKey_eq_append (key : β → String) (l : List β)
    (db : List β) (hn : (l.map key).Nodup)
    (hd : ∀ v ∈ l, ∀ w ∈ db, key w ≠ key v) :
    l.foldl (putByKey key) db = db ++ l := by
  induction l generalizing db with
  | nil => simp
  | cons v t ih =>
    rw [List.foldl_cons,
      putByKey_of_newKey key db v (hd v (List.mem_cons_self v t))]
    rw [List.map_cons, List.nodup_cons] at hn
    have hd' : ∀ v' ∈ t, ∀ w ∈ db ++ [v], key w ≠ key v' := by
      intro v' hv' w hw
      rcases List.mem_append.mp hw with hw | hw
      · exact hd v' (List.mem_cons_of_mem v hv') w hw
      · rcases List.mem_singleton.mp hw with rfl
        intro hkey
        exact hn.1 (hkey ▸ List.mem_map_of_mem key hv')
    rw [ih (db ++ [v]) hn.2 hd']
    simp

/-! ## Lemmas about the totals engine -/

theorem itemTaxAmt_eq_spec (i : InvoiceItem) :
    itemTaxAmt i =
      match i.taxRatePct with
      | some t =>
          if 0 < t then
            i.quantity * i.unitPrice * (1 - (i.discountPct.getD 0) / 100) * t / 100
          else 0
      | none => 0 := by
  unfold itemTaxAmt itemTaxBase itemBase
  cases i.taxRatePct with
  | none => rfl
  | some t =>
    by_cases ht : 0 < t
    · simp only [if_pos ht]
      cases i.discountPct with
      | none => simp [Option.getD]
      | some d =>
        by_cases hd : d ≠ 0
        · simp [hd]
        · push_neg at hd
          subst hd
          simp only [ne_eq, not_true_eq_false, if_false, Option.getD_some]
          ring
    · simp [ht]

theorem pctOf_eq_getD (pct : Option ℚ) (base : ℚ) :
    pctOf pct base = base * pct.getD 0 / 100 := by
  cases pct with
  | none => simp [pctOf]
  | some g =>
    by_cases hg : g ≠ 0
    · simp [pctOf, hg]
    · push_neg at hg
      subst hg
      simp [pctOf]

theorem numOr0_eq_getD (x : Option ℚ) : numOr0 x = x.getD 0 := by
  cases x with
  | none => rfl
  | some s =>
    by_cases hs : s ≠ 0
    · simp [numOr0, hs]
    · push_neg at hs
      subst hs
      simp [numOr0]

/-- The code's pipeline computes exactly the twelve-step pipeline of spec
section 4.1. -/
theorem calculateInvoiceTotals_eq_specTotals (invoice : Invoice) :
    calculateInvoiceTotals invoice = specTotals invoice := by
  have hT : invoice.items.map itemTaxAmt = invoice.items.map (fun i =>
      match i.taxRatePct with
      | some t =>
          if 0 < t then
            i.quantity * i.unitPrice * (1 - (i.discountPct.getD 0) / 100) * t / 100
          else 0
      | none => 0) :=
    List.map_congr_left (fun i _ => itemTaxAmt_eq_spec i)
  have hB : invoice.items.map itemBase =
      invoice.items.map (fun i => i.quantity * i.unitPrice) :=
    List.map_congr_left (fun i _ => rfl)
  have hD : invoice.items.map itemDiscountAmt = invoice.items.map (fun i =>
      match i.discountPct with
      | some d => if 0 < d then i.quantity * i.unitPrice * d / 100 else 0
      | none => 0) :=
    List.map_congr_left (fun i _ => rfl)
  simp only [calculateInvoiceTotals, specTotals, pctOf_eq_getD, numOr0_eq_getD,
    hB, hD, hT]

theorem sum_sub_add_map (l : List InvoiceItem) :
    (l.map itemBase).sum - (l.map itemDiscountAmt).sum + (l.map itemTaxAmt).sum
      = (l.map (fun i => itemBase i - itemDiscountAmt i + itemTaxAmt i)).sum := by
  induction l with
  | nil => simp
  | cons v t ih =>
    simp only [List.map_cons, List.sum_cons]
    rw [← ih]
    ring

/-- With a nonnegative (or absent) item discount, an item's contribution to
the global pipeline — base minus its discount plus its tax — is its
`calculateLineTotal`. -/
theorem line_decompose (i : InvoiceItem)
    (hd : ∀ d, i.discountPct = some d → 0 ≤ d) :
    itemBase i - itemDiscountAmt i + itemTaxAmt i = calculateLineTotal i := by
  unfold itemBase itemDiscountAmt itemTaxAmt itemTaxBase calculateLineTotal
  simp only [itemBase]
  cases hdp : i.discountPct with
  | none =>
    cases i.taxRatePct with
    | none => simp
    | some t =>
      by_cases ht : 0 < t
      · simp only [if_pos ht]
        ring
      · simp [ht]
  | some d =>
    rcases lt_or_eq_of_le (hd d hdp) with hd0 | hd0
    · cases i.taxRatePct with
      | none =>
        simp only [if_pos hd0, hd0.ne.symm, ne_eq, not_false_eq_true, if_true]
        ring
      | some t =>
        by_cases ht : 0 < t
        · simp only [if_pos hd0, if_pos ht, hd0.ne.symm, ne_eq, not_false_eq_true,
            if_true]
          ring
        · simp only [if_pos hd0, if_neg ht]
          ring
    · cases hd0
      cases i.taxRatePct with
      | none => simp
      | some t =>
        by_cases ht : 0 < t
        · simp only [if_pos ht, lt_self_iff_false, if_false, ne_eq,
            not_true_eq_false, sub_zero, add_zero]
          ring
        · simp [ht]

/-! ## Lemmas about the summary fold -/

theorem statusCount_bumpStatus (m : List (InvoiceStatus × ℕ))
    (s' s : InvoiceStatus) :
    statusCount (bumpStatus m s') s =
      (statusCount m s).map (fun n => if s = s' then n + 1 else n) := by
  induction m with
  | nil => rfl
  | cons p t ih =>
    simp only [bumpStatus, List.map_cons] at ih ⊢
    by_cases h1 : p.1 = s'
    · by_cases h2 : p.1 = s
      · have hs : s = s' := by rw [← h2, h1]
        simp [statusCount, h1, h2, hs]
      · have hss : ¬ s' = s := fun h => h2 (h1.trans h)
        simp [statusCount, h1, h2, hss, ih]
    · by_cases h2 : p.1 = s
      · have hs : ¬ s = s' := fun h => h1 (h2.trans h)
        simp [statusCount, h1, h2, hs]
      · simp [statusCount, h1, h2, ih]

theorem statusCount_initial (s : InvoiceStatus) :
    statusCount initialByStatus s = some 0 := by
  cases s <;> rfl

theorem foldl_sumStep_spec (l : List Invoice) (acc : InvoiceSummary) :
    (l.foldl sumStep acc).totalInvoices = acc.totalInvoices ∧
    (l.foldl sumStep acc).totalRevenue
      = acc.totalRevenue + (l.map (fun v => v.totals.grandTotal)).sum ∧
    (l.foldl sumStep acc).totalPaid
      = acc.totalPaid + (l.map (fun v => v.totals.amountPaid)).sum ∧
    (l.foldl sumStep acc).totalOutstanding
      = acc.totalOutstanding + (l.map (fun v => v.totals.balanceDue)).sum ∧
    ∀ s, statusCount (l.foldl sumStep acc).byStatus s
      = (statusCount acc.byStatus s).map
          (fun n => n + (l.filter (fun v => decide (v.status = s))).length) := by
  induction l generalizing acc with
  | nil => simp
  | cons v t ih =>
    rw [List.foldl_cons]
    obtain ⟨i1, i2, i3, i4, i5⟩ := ih (sumStep acc v)
    refine ⟨?_, ?_, ?_, ?_, ?_⟩
    · rw [i1]; rfl
    · rw [i2]
      simp only [sumStep, List.map_cons, List.sum_cons]
      ring
    · rw [i3]
      simp only [sumStep, List.map_cons, List.sum_cons]
      ring
    · rw [i4]
      simp only [sumStep, List.map_cons, List.sum_cons]
      ring
    · intro s
      rw [i5 s]
      have hb : (sumStep acc v).byStatus = bumpStatus acc.byStatus v.status := rfl
      rw [hb, statusCount_bumpStatus]
      cases hsc : statusCount acc.byStatus s with
      | none => simp
      | some n =>
        simp only [Option.map_some, List.filter_cons]
        by_cases hv : v.status = s
        · simp [hv, Option.map_some']
          omega
        · have hv' : ¬ s = v.status := fun h => hv h.symm
          simp [hv, hv']

/-! ## Lemmas about the filter chain -/

/-- The status stage of the chain as a predicate on one invoice. -/
def statusPassO (st : Option (List InvoiceStatus)) (inv : Invoice) : Bool :=
  match st with
  | some ss =>
      if ss.length > 0 then ss.any (fun s => decide (s = inv.status)) else true
  | none => true

def dateFromPassO (df : Option String) (inv : Invoice) : Bool :=
  match df with
  | some d => if d ≠ "" then decide (d ≤ inv.createdAt) else true
  | none => true

def dateToPassO (dt : Option String) (inv : Invoice) : Bool :=
  match dt with
  | some d => if d ≠ "" then decide (inv.createdAt ≤ d) else true
  | none => true

def searchPassO (q : Option String) (inv : Invoice) : Bool :=
  match q with
  | some q => if q ≠ "" then matchesQuery q inv else true
  | none => true

/-- The conjunction of the four stages: the predicate the chained filters
of `getFilteredInvoices` implement. -/
def codeMatches (f : InvoiceFilter) (inv : Invoice) : Bool :=
  statusPassO f.status inv && dateFromPassO f.dateFrom inv &&
  dateToPassO f.dateTo inv && searchPassO f.searchQuery inv

theorem status_stage (st : Option (List InvoiceStatus)) (l : List Invoice) :
    (match st with
     | some ss =>
         if ss.length > 0 then
           l.filter (fun inv => ss.any (fun s => decide (s = inv.status)))
         else l
     | none => l) = l.filter (fun inv => statusPassO st inv) := by
  cases st with
  | none => simp [statusPassO]
  | some ss =>
    by_cases h : ss.length > 0
    · simp [statusPassO, h]
    · simp [statusPassO, h]

theorem dateFrom_stage (df : Option String) (l : List Invoice) :
    (match df with
     | some d =>
         if d ≠ "" then l.filter (fun inv => decide (d ≤ inv.createdAt)) else l
     | none => l) = l.filter (fun inv => dateFromPassO df inv) := by
  cases df with
  | none => simp [dateFromPassO]
  | some d =>
    by_cases h : d ≠ ""
    · simp [dateFromPassO, h]
    · simp [dateFromPassO, h]

theorem dateTo_stage (dt : Option String) (l : List Invoice) :
    (match dt with
     | some d =>
         if d ≠ "" then l.filter (fun inv => decide (inv.createdAt ≤ d)) else l
     | none => l) = l.filter (fun inv => dateToPassO dt inv) := by
  cases dt with
  | none => simp [dateToPassO]
  | some d =>
    by_cases h : d ≠ ""
    · simp [dateToPassO, h]
    · simp [dateToPassO, h]

theorem search_stage (q : Option String) (l : List Invoice) :
    (match q with
     | some q =>
         if q ≠ "" then l.filter (fun inv => matchesQuery q inv) else l
     | none => l) = l.filter (fun inv => searchPassO q inv) := by
  cases q with
  | none => simp [searchPassO]
  | some q =>
    by_cases h : q ≠ ""
    · simp [searchPassO, h]
    · simp [searchPassO, h]

theorem getFilteredInvoices_eq (time : String → ℤ) (f : InvoiceFilter)
    (db : List Invoice) :
    getFilteredInvoices time f db
      = List.insertionSort (createdDesc time) (db.filter (codeMatches f)) := by
  simp only [getFilteredInvoices]
  rw [status_stage, dateFrom_stage, dateTo_stage, search_stage,
    List.filter_filter, List.filter_filter, List.filter_filter]
  congr 1
  apply List.filter_congr
  intro a _
  simp only [codeMatches]
  cases statusPassO f.status a <;> cases dateFromPassO f.dateFrom a <;>
    cases dateToPassO f.dateTo a <;> cases searchPassO f.searchQuery a <;> rfl

/-- The filter predicate exactly as claim C8 words it: every criterion
present in the filter constrains the result — status set membership,
inclusive string-compared date range, case-insensitive substring search
over number, client name, seller name and notes. -/
def claimMatches (f : InvoiceFilter) (inv : Invoice) : Bool :=
  (match f.status with
   | some ss => ss.any (fun s => decide (s = inv.status))
   | none => true) &&
  (match f.dateFrom with
   | some d => decide (d ≤ inv.createdAt)
   | none => true) &&
  (match f.dateTo with
   | some d => decide (inv.createdAt ≤ d)
   | none => true) &&
  (match f.searchQuery with
   | some q => matchesQuery q inv
   | none => true)

/-- Claim C8's predicate with the amendment: a present-but-empty criterion
(empty status list, empty date string, empty query string) imposes no
constraint, matching the source's truthiness guards. -/
def claimMatchesAmended (f : InvoiceFilter) (inv : Invoice) : Bool :=
  (match f.status with
   | some ss => ss.isEmpty || ss.any (fun s => decide (s = inv.status))
   | none => true) &&
  (match f.dateFrom with
   | some d => decide (d = "") || decide (d ≤ inv.createdAt)
   | none => true) &&
  (match f.dateTo with
   | some d => decide (d = "") || decide (inv.createdAt ≤ d)
   | none => true) &&
  (match f.searchQuery with
   | some q => decide (q = "") || matchesQuery q inv
   | none => true)

theorem codeMatches_eq_amended (f : InvoiceFilter) (inv : Invoice) :
    codeMatches f inv = claimMatchesAmended f inv := by
  have h1 : statusPassO f.status inv =
      (match f.status with
       | some ss => ss.isEmpty || ss.any (fun s => decide (s = inv.status))
       | none => true) := by
    cases f.status with
    | none => rfl
    | some ss =>
      cases ss with
      | nil => rfl
      | cons a as => simp [statusPassO]
  have h2 : dateFromPassO f.dateFrom inv =
      (match f.dateFrom with
       | some d => decide (d = "") || decide (d ≤ inv.createdAt)
       | none => true) := by
    cases f.dateFrom with
    | none => rfl
    | some d =>
      by_cases hd : d = ""
      · subst hd; rfl
      · simp [dateFromPassO, hd]
  have h3 : dateToPassO f.dateTo inv =
      (match f.dateTo with
       | some d => decide (d = "") || decide (inv.createdAt ≤ d)
       | none => true) := by
    cases f.dateTo with
    | none => rfl
    | some d =>
      by_cases hd : d = ""
      · subst hd; rfl
      · simp [dateToPassO, hd]
  have h4 : searchPassO f.searchQuery inv =
      (match f.searchQuery with
       | some q => decide (q = "") || matchesQuery q inv
       | none => true) := by
    cases f.searchQuery with
    | none => rfl
    | some q =>
      by_cases hq : q = ""
      · subst hq; rfl
      · simp [searchPassO, hq]
  simp only [codeMatches, claimMatchesAmended, h1, h2, h3, h4]

/-! ## Concrete fixtures -/

def theme0 : Theme := ⟨"#3B82F6", .light, .cozy, .letter⟩

def seller0 : Seller := ⟨"Studio North", "1 Main St", none, none, none, none⟩

def client0 : Client := ⟨"Acme Corp", none, none⟩

/-- A minimal concrete invoice, the base of the test fixtures below. -/
def invBlank : Invoice :=
  { id := "inv-1"
    number := "INV-202601-0001"
    status := .draft
    createdAt := "2026-01-01T00:00:00.000Z"
    updatedAt := "2026-01-01T00:00:00.000Z"
    issueDate := "2026-01-01"
    dueDate := "2026-01-31"
    currency := "USD"
    language := "en"
    theme := theme0
    seller := seller0
    client := client0
    meta := none
    items := []
    adjustments := ⟨none, none, none⟩
    payments := []
    notes := none
    terms := none
    totals := ⟨0, 0, 0, 0, 0, 0⟩ }

def c1Example1 : Invoice :=
  { invBlank with items := [⟨"item-1", "Widget", 2, 100, some 20, some 10⟩] }

def c1Example2 : Invoice :=
  { invBlank with
    items := [⟨"item-1", "Widget", 1, 100, none, none⟩]
    adjustments := ⟨some 5, some 10, some 10⟩ }

/-! ## Claims -/

/-- C1: `calculateInvoiceTotals` follows the fixed pipeline of spec section
4.1 — proved as an equality with `specTotals`, the pipeline written out
step by step from the spec text (subtotal before discounts, item discounts
then global discount on the reduced subtotal, shipping added, item taxes on
each item's own discounted amount, global tax on the shipping-inclusive
discounted amount, grand total as their sum).  The claim's two examples
evaluate as stated: item `{quantity 2, unitPrice 100, discountPct 10,
taxRatePct 20}` alone gives subtotal 200, discount 20, tax 36, grandTotal
216, balanceDue 216; and items subtotal 100 with globalDiscountPct 10,
shipping 5, globalTaxPct 10 gives grandTotal 104.5. -/
theorem totals_follow_spec_pipeline :
    (∀ invoice, calculateInvoiceTotals invoice = specTotals invoice) ∧
    calculateInvoiceTotals c1Example1 = ⟨200, 36, 20, 216, 0, 216⟩ ∧
    (calculateInvoiceTotals c1Example2).grandTotal = 209 / 2 := by
  refine ⟨calculateInvoiceTotals_eq_specTotals, ?_, ?_⟩
  · simp [calculateInvoiceTotals, c1Example1, invBlank, itemBase,
      itemDiscountAmt, itemTaxAmt, itemTaxBase, pctOf, numOr0]
    norm_num
  · simp [calculateInvoiceTotals, c1Example2, invBlank, itemBase,
      itemDiscountAmt, itemTaxAmt, itemTaxBase, pctOf, numOr0]
    norm_num

def c5Cex : Invoice :=
  { invBlank with payments := [⟨"pay-1", "2026-01-02", 5, none⟩] }

/-- C5 counterexample: an invoice with an empty items list but one recorded
payment of 5 does not have all six Totals fields zero — its `amountPaid`
is 5 (and `balanceDue` is -5), refuting the claim as stated. -/
theorem zero_items_counterexample :
    c5Cex.items = [] ∧ calculateInvoiceTotals c5Cex ≠ ⟨0, 0, 0, 0, 0, 0⟩ := by
  refine ⟨rfl, fun h => ?_⟩
  have h5 : (calculateInvoiceTotals c5Cex).amountPaid = 5 := by
    simp [calculateInvoiceTotals, c5Cex, invBlank]
  rw [h] at h5
  norm_num at h5

/-- C5 (amended): an invoice with an empty items list, an empty payments
list, and absent-or-zero shipping has all six Totals fields equal to
zero. -/
theorem zero_items_amended (inv : Invoice) (hitems : inv.items = [])
    (hpay : inv.payments = [])
    (hship : inv.adjustments.shipping = none
        ∨ inv.adjustments.shipping = some 0) :
    calculateInvoiceTotals inv = ⟨0, 0, 0, 0, 0, 0⟩ := by
  have hs0 : numOr0 inv.adjustments.shipping = 0 := by
    rcases hship with h | h <;> simp [h, numOr0]
  simp only [calculateInvoiceTotals, hitems, hpay, List.map_nil, List.sum_nil,
    hs0, pctOf_eq_getD]
  norm_num

def c5Wit : Invoice :=
  { invBlank with adjustments := ⟨some 0, some 10, some 10⟩ }

/-- Witness for the amended C5: a concrete empty invoice with zero shipping
and nonzero global percentages still totals to all zeros. -/
theorem zero_items_amended_witness :
    calculateInvoiceTotals c5Wit = ⟨0, 0, 0, 0, 0, 0⟩ :=
  zero_items_amended c5Wit rfl rfl (Or.inr rfl)

/-- C6: for every invoice, `balanceDue = grandTotal - amountPaid` exactly,
`amountPaid` is the sum of the payment amounts, and an overpaid invoice has
a negative (not clamped) balance. -/
theorem balance_identity (inv : Invoice) :
    (calculateInvoiceTotals inv).balanceDue
      = (calculateInvoiceTotals inv).grandTotal
        - (calculateInvoiceTotals inv).amountPaid ∧
    (calculateInvoiceTotals inv).amountPaid
      = (inv.payments.map Payment.amount).sum ∧
    ((calculateInvoiceTotals inv).grandTotal
        < (calculateInvoiceTotals inv).amountPaid →
      (calculateInvoiceTotals inv).balanceDue < 0) := by
  refine ⟨rfl, rfl, fun h => ?_⟩
  have hb : (calculateInvoiceTotals inv).balanceDue
      = (calculateInvoiceTotals inv).grandTotal
        - (calculateInvoiceTotals inv).amountPaid := rfl
  rw [hb]
  exact sub_neg.mpr h

def c6Inv : Invoice :=
  { invBlank with payments := [⟨"pay-1", "2026-01-02", 10, none⟩] }

/-- Witness for C6 at a concrete overpaid invoice: grand total 0, paid 10,
negative balance. -/
theorem balance_identity_witness :
    (calculateInvoiceTotals c6Inv).grandTotal
      < (calculateInvoiceTotals c6Inv).amountPaid ∧
    (calculateInvoiceTotals c6Inv).balanceDue < 0 := by
  have hlt : (calculateInvoiceTotals c6Inv).grandTotal
      < (calculateInvoiceTotals c6Inv).amountPaid := by
    simp [calculateInvoiceTotals, c6Inv, invBlank, pctOf, numOr0]
  exact ⟨hlt, (balance_identity c6Inv).2.2 hlt⟩

/-- C10: when shipping and the global percentages are each absent or zero
and every item percentage is absent or within [0, 100], the pipeline's
grand total is the sum of `calculateLineTotal` over the items. -/
theorem grandTotal_eq_sum_lineTotals (inv : Invoice)
    (hship : inv.adjustments.shipping = none
        ∨ inv.adjustments.shipping = some 0)
    (hgd : inv.adjustments.globalDiscountPct = none
        ∨ inv.adjustments.globalDiscountPct = some 0)
    (hgt : inv.adjustments.globalTaxPct = none
        ∨ inv.adjustments.globalTaxPct = some 0)
    (hpct : ∀ i ∈ inv.items,
      (∀ d, i.discountPct = some d → 0 ≤ d ∧ d ≤ 100) ∧
      (∀ t, i.taxRatePct = some t → 0 ≤ t ∧ t ≤ 100)) :
    (calculateInvoiceTotals inv).grandTotal
      = (inv.items.map calculateLineTotal).sum := by
  have hgd0 : inv.adjustments.globalDiscountPct.getD 0 = 0 := by
    rcases hgd with h | h <;> simp [h]
  have hgt0 : inv.adjustments.globalTaxPct.getD 0 = 0 := by
    rcases hgt with h | h <;> simp [h]
  have hs0 : inv.adjustments.shipping.getD 0 = 0 := by
    rcases hship with h | h <;> simp [h]
  simp only [calculateInvoiceTotals, pctOf_eq_getD, numOr0_eq_getD, hgd0, hgt0,
    hs0, mul_zero, zero_div, sub_zero, add_zero]
  rw [sum_sub_add_map]
  exact congrArg List.sum (List.map_congr_left fun i hi =>
    line_decompose i (fun d hd => ((hpct i hi).1 d hd).1))

/-- Witness for C10 at the concrete single-item invoice of C1's first
example: both sides equal 216. -/
theorem grandTotal_eq_sum_lineTotals_witness :
    (calculateInvoiceTotals c1Example1).grandTotal
      = (c1Example1.items.map calculateLineTotal).sum := by
  refine grandTotal_eq_sum_lineTotals c1Example1 (Or.inl rfl) (Or.inl rfl)
    (Or.inl rfl) ?_
  intro i hi
  rcases List.mem_singleton.mp hi with rfl
  constructor
  · intro d hd
    cases hd
    norm_num
  · intro t ht
    cases ht
    norm_num

/-- C3: `duplicateInvoice` on a stored id produces and persists a new
invoice whose id is the freshly generated one, whose number comes from
sequence `count(all invoices) + 1`, whose status is draft, whose payments
are cleared, whose Totals keep every field of the original verbatim except
`amountPaid = 0` and `balanceDue = original grand total`, and whose
timestamps are set to now; on a missing id it reports not-found and leaves
the store untouched. -/
theorem duplicateInvoice_spec (db : List Invoice)
    (id newId now yearMonth : String) :
    (∀ original, getInvoice db id = some original →
      ∃ dup,
        (duplicateInvoice db id newId now yearMonth).1 = some dup ∧
        (duplicateInvoice db id newId now yearMonth).2 = putInvoice db dup ∧
        getInvoice (duplicateInvoice db id newId now yearMonth).2 newId
          = some dup ∧
        (∀ j, j ≠ newId →
          getInvoice (duplicateInvoice db id newId now yearMonth).2 j
            = getInvoice db j) ∧
        dup.id = newId ∧
        dup.number = generateInvoiceNumber yearMonth (db.length + 1) ∧
        dup.status = .draft ∧
        dup.payments = [] ∧
        dup.createdAt = now ∧
        dup.updatedAt = now ∧
        dup.totals = ⟨original.totals.subtotal, original.totals.tax,
          original.totals.discount, original.totals.grandTotal, 0,
          original.totals.grandTotal⟩ ∧
        dup.items = original.items ∧
        dup.adjustments = original.adjustments ∧
        dup.seller = original.seller ∧
        dup.client = original.client) ∧
    (getInvoice db id = none →
      duplicateInvoice db id newId now yearMonth = (none, db)) := by
  constructor
  · intro original horig
    simp only [duplicateInvoice, horig]
    refine ⟨_, rfl, rfl, ?_, ?_, rfl, rfl, rfl, rfl, rfl, rfl, rfl, rfl, rfl,
      rfl, rfl⟩
    · show findByKey Invoice.id (putByKey Invoice.id db _) newId = _
      rw [findByKey_putByKey]
      simp
    · intro j hj
      show findByKey Invoice.id (putByKey Invoice.id db _) j = _
      rw [findByKey_putByKey]
      exact if_neg (fun h => hj (h.symm))
  · intro hnone
    simp [duplicateInvoice, hnone]

def c3Orig : Invoice :=
  { invBlank with
    id := "inv-orig"
    totals := ⟨500, 0, 0, 500, 200, 300⟩ }

/-- Witness for C3: duplicating a stored invoice with grand total 500 and
200 already paid yields a draft with cleared payments, nothing paid,
balance 500, and invoice number built from sequence 2. -/
theorem duplicateInvoice_spec_witness :
    ∃ dup,
      (duplicateInvoice [c3Orig] "inv-orig" "id-new" "2026-02-01T00:00:00.000Z"
          "202602").1 = some dup ∧
      dup.status = .draft ∧
      dup.payments = [] ∧
      dup.totals.amountPaid = 0 ∧
      dup.totals.balanceDue = 500 ∧
      dup.number = "INV-202602-0002" := by
  obtain ⟨dup, h1, _h2, _h3, _h4, _h5, h6, h7, h8, _h9, _h10, h11, _h12, _h13,
      _h14, _h15⟩ :=
    (duplicateInvoice_spec [c3Orig] "inv-orig" "id-new"
        "2026-02-01T00:00:00.000Z" "202602").1 c3Orig rfl
  refine ⟨dup, h1, h7, h8, ?_, ?_, ?_⟩
  · rw [h11]
  · rw [h11]
    rfl
  · rw [h6]
    rfl

/-- C9: `getInvoiceSummary` reports the stored invoice count, the sums of
grand totals, amounts paid and balances due, and a `byStatus` map in which
every one of the five status keys is present and carries that status's
count (0 when no invoice has it). -/
theorem invoiceSummary_spec (db : List Invoice) :
    (getInvoiceSummary db).totalInvoices = db.length ∧
    (getInvoiceSummary db).totalRevenue
      = (db.map (fun v => v.totals.grandTotal)).sum ∧
    (getInvoiceSummary db).totalPaid
      = (db.map (fun v => v.totals.amountPaid)).sum ∧
    (getInvoiceSummary db).totalOutstanding
      = (db.map (fun v => v.totals.balanceDue)).sum ∧
    (∀ s, statusCount (getInvoiceSummary db).byStatus s
      = some ((db.filter (fun v => decide (v.status = s))).length)) := by
  obtain ⟨h1, h2, h3, h4, h5⟩ := foldl_sumStep_spec db
    { totalInvoices := db.length
      totalRevenue := 0
      totalPaid := 0
      totalOutstanding := 0
      byStatus := initialByStatus }
  refine ⟨h1, ?_, ?_, ?_, ?_⟩
  · simpa using h2
  · simpa using h3
  · simpa using h4
  · intro s
    simpa [statusCount_initial] using h5 s

/-- C8 counterexample: with a present-but-empty status list the source
skips the status stage entirely (its guard requires a nonempty array) and
returns the stored invoice, while the claim's conjunction — status must lie
in the given (empty) set — matches nothing. -/
theorem filteredInvoices_counterexample :
    getFilteredInvoices (fun _ => 0) ⟨some [], none, none, none⟩ [invBlank]
      = [invBlank] ∧
    claimMatches ⟨some [], none, none, none⟩ invBlank = false := by
  exact ⟨rfl, rfl⟩

/-- C8 (amended): `getFilteredInvoices` returns exactly the invoices
satisfying the conjunction of the filter's criteria — where a
present-but-empty criterion (empty status list, empty date string, empty
query string) imposes no constraint — sorted newest-first by `createdAt`
(descending in the parsed date value `time`). -/
theorem filteredInvoices_spec_amended (time : String → ℤ) (f : InvoiceFilter)
    (db : List Invoice) :
    (getFilteredInvoices time f db).Perm
      (db.filter (claimMatchesAmended f)) ∧
    List.Sorted (createdDesc time) (getFilteredInvoices time f db) := by
  constructor
  · have he : db.filter (codeMatches f) = db.filter (claimMatchesAmended f) :=
      List.filter_congr (fun a _ => codeMatches_eq_amended f a)
    rw [getFilteredInvoices_eq, he]
    exact List.perm_insertionSort _ _
  · rw [getFilteredInvoices_eq]
    exact List.sorted_insertionSort _ _

theorem importData_some_invoices (d : ImportDoc) (merge : Bool) (st : Store) :
    (importData (some d) merge st).1.invoices
      = (d.invoices.getD []).foldl (putByKey Invoice.id)
          (if merge then st.invoices else []) := by
  rcases d with ⟨di, ds⟩
  cases ds <;> cases merge <;> rfl

theorem importData_some_settings (d : ImportDoc) (merge : Bool) (st : Store) :
    (importData (some d) merge st).1.settings
      = (d.settings.getD []).foldl (putByKey Prod.fst)
          (if merge then st.settings else []) := by
  rcases d with ⟨di, ds⟩
  cases ds <;> cases merge <;> rfl

theorem orElseO_none (a : Option β) : orElseO a none = a := by
  cases a <;> rfl

theorem findByKey_nil (key : β → String) (k : String) :
    findByKey key [] k = none := rfl

/-- C2: under merge=false the store afterwards holds exactly the document's
records — the result does not depend on the prior store, an id resolves to
the last document record carrying it, and with distinct ids the invoice
store is literally the document's list; under merge=true invoices are
upserted by id and settings by key, everything else remaining; both modes
return the document's invoice count. -/
theorem importData_spec (st : Store) (d : ImportDoc) :
    (((d.invoices.getD []).map Invoice.id).Nodup →
      (importData (some d) false st).1.invoices = d.invoices.getD []) ∧
    (∀ st', (importData (some d) false st).1
        = (importData (some d) false st').1) ∧
    (∀ i, getInvoice (importData (some d) false st).1.invoices i
        = lastWithKey Invoice.id (d.invoices.getD []) i) ∧
    (∀ k, findByKey Prod.fst (importData (some d) false st).1.settings k
        = lastWithKey Prod.fst (d.settings.getD []) k) ∧
    (∀ i, getInvoice (importData (some d) true st).1.invoices i
        = orElseO (lastWithKey Invoice.id (d.invoices.getD []) i)
            (getInvoice st.invoices i)) ∧
    (∀ k, findByKey Prod.fst (importData (some d) true st).1.settings k
        = orElseO (lastWithKey Prod.fst (d.settings.getD []) k)
            (findByKey Prod.fst st.settings k)) ∧
    (∀ merge, (importData (some d) merge st).2
        = .ok (d.invoices.getD []).length) := by
  refine ⟨?_, ?_, ?_, ?_, ?_, ?_, ?_⟩
  · intro hn
    rw [importData_some_invoices]
    simp only [if_neg Bool.false_ne_true]
    rw [foldl_putByKey_eq_append Invoice.id _ [] hn
      (fun v _ w hw => absurd hw (List.not_mem_nil w))]
    exact List.nil_append _
  · intro st'
    cases d.settings <;> rfl
  · intro i
    show findByKey Invoice.id _ i = _
    rw [importData_some_invoices, if_neg Bool.false_ne_true,
      findByKey_foldl_putByKey, findByKey_nil, orElseO_none]
  · intro k
    rw [importData_some_settings, if_neg Bool.false_ne_true,
      findByKey_foldl_putByKey, findByKey_nil, orElseO_none]
  · intro i
    show findByKey Invoice.id _ i = _
    rw [importData_some_invoices, if_pos rfl, findByKey_foldl_putByKey]
    rfl
  · intro k
    rw [importData_some_settings, if_pos rfl, findByKey_foldl_putByKey]
  · intro merge
    cases d.settings <;> rfl

def c2PriorStore : Store := ⟨[c3Orig], [("lastInvoiceId", "inv-orig")]⟩

/-- Witness for C2: importing a one-invoice document over a store holding a
different invoice with merge=false leaves exactly the document's invoice. -/
theorem importData_spec_witness :
    (importData (some ⟨some [invBlank], some [("theme", "dark")]⟩) false
        c2PriorStore).1.invoices = [invBlank] :=
  (importData_spec c2PriorStore
    ⟨some [invBlank], some [("theme", "dark")]⟩).1 (by decide)

/-- C7 counterexample: the empty JSON object parses, is not snapshot-shaped
(it has no `invoices` or `settings` field), yet `importData` does not fail:
with merge=false it clears both collections — the store visibly changes —
and the call returns ok 0. -/
theorem malformedImport_counterexample :
    importData (some ⟨none, none⟩) false c2PriorStore
      = (emptyStore, .ok 0) ∧
    c2PriorStore.invoices ≠ [] := by
  refine ⟨rfl, by decide⟩

/-- C7 (amended): `importData` fails with MalformedImport and performs no
writes exactly when the document fails to parse as JSON; a document that
does parse is processed even when it is not snapshot-shaped — a missing
`invoices` or `settings` field counts as empty, the invoice count is
returned, and with merge=false the two collections are cleared first, so a
wrong-shape document still wipes the store. -/
theorem malformedImport_amended (merge : Bool) (st : Store) :
    importData none merge st = (st, .error .malformedImport) ∧
    (∀ d, (importData (some d) merge st).2
        = .ok (d.invoices.getD []).length) ∧
    (∀ d, d.invoices = none → d.settings = none →
      (importData (some d) false st).1 = emptyStore) := by
  refine ⟨rfl, fun d => ?_, fun d h1 h2 => ?_⟩
  · cases d.settings <;> rfl
  · rcases d with ⟨di, ds⟩
    cases h1
    cases h2
    rfl

/-- Witness for the amended C7 at a concrete store: a parse failure returns
the error and the untouched store; the empty-object document returns ok 0
and leaves the replaced store empty. -/
theorem malformedImport_amended_witness :
    importData none false c2PriorStore
      = (c2PriorStore, .error .malformedImport) ∧
    (importData (some ⟨none, none⟩) true c2PriorStore).2 = .ok 0 ∧
    (importData (some ⟨none, none⟩) false c2PriorStore).1 = emptyStore := by
  refine ⟨(malformedImport_amended false c2PriorStore).1,
    (malformedImport_amended true c2PriorStore).2.1 ⟨none, none⟩,
    (malformedImport_amended false c2PriorStore).2.2 ⟨none, none⟩ rfl rfl⟩

def c4StoreA : Store := ⟨[], [("themeColor", "blue")]⟩

def c4StoreB : Store := ⟨[], [("lastSellerName", "blue")]⟩

/-- C4 counterexample: two stores whose settings differ only in their keys
produce identical export documents, so the exported `settings` cannot
contain the key/value pairs the claim describes — `db.getAll('settings')`
returns bare values and the keys are lost (the version field is also named
`version`, not `formatVersion`). -/
theorem exportData_counterexample :
    exportData c4StoreA "2026-03-01T00:00:00.000Z"
      = exportData c4StoreB "2026-03-01T00:00:00.000Z" ∧
    c4StoreA.settings ≠ c4StoreB.settings := by
  refine ⟨rfl, by decide⟩

/-- C4 (amended): the export document carries the integer database version
(field `version`, value 1), the `exportedAt` timestamp, every stored
invoice record, and the stored setting values — without their keys. -/
theorem exportData_spec_amended (st : Store) (now : String) :
    (exportData st now).version = 1 ∧
    (exportData st now).exportedAt = now ∧
    (∀ inv, inv ∈ (exportData st now).invoices ↔ inv ∈ st.invoices) ∧
    (∀ v, v ∈ (exportData st now).settings ↔ ∃ k, (k, v) ∈ st.settings) := by
  refine ⟨rfl, rfl, fun inv => Iff.rfl, fun v => ?_⟩
  simp only [exportData, List.mem_map]
  constructor
  · rintro ⟨⟨k, v'⟩, hmem, rfl⟩
    exact ⟨k, hmem⟩
  · rintro ⟨k, hmem⟩
    exact ⟨(k, v), hmem, rfl⟩

end InvGen
